import Mathlib

/-!
Verification of the HLS media-playlist parser
(`src/HLS_Parse/src/media_playlist.rs`, `MediaPlaylist::parse_ext_m3u`).

The Rust source is shallowly embedded here.  Strings are modelled as
`List Char`; Rust `u64` values as `Nat` with an explicit `< 2^64` bound in
`parseU64`; Rust `core::time::Duration` as a rational number of seconds
(`ℚ`).  The `f32` values produced by `"...".parse::<f32>()` are modelled by
`F32`: the exact rational value of the IEEE binary32 number the decimal
rounds to (round to nearest, ties to even, with underflow to a signed zero
and overflow to infinity, implemented over integers in `roundF32Pos`),
plus the `inf`/`neginf`/`nan` tokens the Rust float grammar accepts and a
negative-zero value.  `Duration::from_secs_f32` (which panics on a
sign-negative, NaN, infinite, or `≥ 2^64`-second value) is modelled by
`fromSecsF32`, applied to that rounded binary32 value; the duration it
yields is kept as the exact `f32` seconds rather than quantized to whole
nanoseconds, a deviation no theorem below depends on (panic behavior is
decided before quantization, and every value comparison runs the same
conversion on both sides).  A Rust panic is modelled as the distinguished
outcome `PFail.panic`, separate from the `anyhow::Error` returns, which
are classified by `ParseError` following the error taxonomy of the spec.
-/

namespace HLSParse

/-- Rust string slices, modelled as lists of characters. -/
abbrev Str : Type := List Char

/-- Coerces a Lean string literal to the `Str` model. -/
def str (s : String) : Str := s.data

/-- Rust `s.starts_with(p)`, here `startsWith p s`. -/
def startsWith : Str → Str → Bool
  | [], _ => true
  | _ :: _, [] => false
  | p :: ps, c :: cs => p == c && startsWith ps cs

/-- Rust `s.strip_prefix(p)`, here `stripPre p s`: `some` of the remainder
when `p` is a prefix of `s`, otherwise `none`. -/
def stripPre : Str → Str → Option Str
  | [], s => some s
  | _ :: _, [] => none
  | p :: ps, c :: cs => if p == c then stripPre ps cs else none

/-- Rust `s.split(",")` followed by indexing with `[0]`: the part of `s`
before the first comma (all of `s` when there is no comma). -/
def firstField (s : Str) : Str := s.takeWhile (fun c => c != ',')

/-- Splits on every newline character (raw split, keeps empty pieces).
Always returns a non-empty list. -/
def splitNl : Str → List Str
  | [] => [[]]
  | c :: cs =>
    if c == '\n' then [] :: splitNl cs
    else
      match splitNl cs with
      | [] => [[c]]
      | l :: ls => (c :: l) :: ls

/-- Removes one trailing carriage return, as Rust `str::lines` does for a
line terminated by `\r\n`. -/
def stripCr (l : Str) : Str :=
  match l.getLast? with
  | some c => if c == '\r' then l.dropLast else l
  | none => l

/-- Rust `str::lines`: split on `\n`, strip a trailing `\r` from each
`\n`-terminated piece, and drop the final piece when it is empty (the final
line ending is optional and produces no trailing empty line). -/
def rustLines (s : Str) : List Str :=
  let ps := splitNl s
  let init := ps.dropLast.map stripCr
  match ps.getLast? with
  | some [] => init
  | some l => init ++ [l]
  | none => init

/-- Numeric value of a list of decimal digit characters. -/
def digitsToNat (ds : Str) : Nat :=
  ds.foldl (fun n c => 10 * n + (c.toNat - '0'.toNat)) 0

/-- Rust `"...".parse::<u64>()`: an optional leading `+`, then one or more
decimal digits, value below `2^64`. -/
def parseU64 (s : Str) : Option Nat :=
  let rest := match s with
    | '+' :: r => r
    | r => r
  if rest.isEmpty then none
  else if rest.all Char.isDigit then
    let n := digitsToNat rest
    if n < 18446744073709551616 then some n else none
  else none

/-- Value of a Rust `f32` produced by `"...".parse::<f32>()`: the exact
rational value of a finite binary32 number (`finite 0` is positive zero and
`negzero` the negative zero, which differ by sign bit only), or an
infinity or NaN. -/
inductive F32 : Type where
  | finite (q : ℚ)
  | negzero
  | inf
  | neginf
  | nan
deriving DecidableEq

/-- Consumes an optional sign character; `true` means negative. -/
def readSign : Str → (Bool × Str)
  | '-' :: r => (true, r)
  | '+' :: r => (false, r)
  | s => (false, s)

/-- Lower-cases every character (for the case-insensitive inf/nan tokens). -/
def toLowerStr (s : Str) : Str := s.map Char.toLower

/-- Rounds the integer ratio `a / b` (with `b > 0`) to the nearest
integer, ties to even. -/
def rdiv (a b : ℕ) : ℕ :=
  let n := a / b
  let r := a % b
  if b < 2 * r then n + 1
  else if 2 * r < b then n
  else if n % 2 = 0 then n else n + 1

/-- Floor base-2 logarithm, fuelled; the callers below only apply it to
values below `2^128`, so the fuel is never exhausted. -/
def log2F : ℕ → ℕ → ℕ
  | 0, _ => 0
  | fuel + 1, n => if 2 ≤ n then log2F fuel (n / 2) + 1 else 0

/-- The rational `±(n * 2 ^ k)`, built with `mkRat` so that it evaluates
by kernel reduction. -/
def pow2MulS (neg : Bool) (n : ℕ) (k : ℤ) : ℚ :=
  let m : ℤ := if neg then -(n : ℤ) else (n : ℤ)
  if 0 ≤ k then mkRat (m * 2 ^ k.toNat) 1 else mkRat m (2 ^ (-k).toNat)

/-- IEEE binary32 rounding (to nearest, ties to even) of the nonnegative
value `num / den` (`den > 0`): `none` when the value rounds to infinity
(at or above `2^128 - 2^103`), otherwise the significand and exponent of
the rounded value `n * 2 ^ k`.  Values below `2^-126` use the subnormal
step `2^-149` (rounding to `(0, 0)` when below half of it); in the normal
range the exponent `e` with `2^e ≤ num/den < 2^(e+1)` is found through the
floor logarithm of the integer quotient, and the 24-bit significand is the
rounded ratio at step `2^(e-23)`. -/
def roundF32Pos (num den : ℕ) : Option (ℕ × ℤ) :=
  if num = 0 then some (0, 0)
  else if den * 340282356779733661637539395458142568448 ≤ num then none
  else if num * 2 ^ 126 < den then some (rdiv (num * 2 ^ 149) den, -149)
  else
    let e : ℤ :=
      if den ≤ num then (log2F 200 (num / den) : ℤ)
      else
        let f := log2F 200 (den / num)
        if num * 2 ^ f = den then -(f : ℤ) else -(f : ℤ) - 1
    let k : ℤ := 23 - e
    let n := if 0 ≤ k then rdiv (num * 2 ^ k.toNat) den
      else rdiv num (den * 2 ^ (-k).toNat)
    some (n, e - 23)

/-- The binary32 value denoted by sign, integer digits, fraction digits
and a decimal exponent: `sign * digits(ip ++ fp) * 10 ^ (e - fp.length)`
rounded to the nearest `f32`, with signed zeros and overflow to the
infinities. -/
def mkF32 (neg : Bool) (ip fp : Str) (e : ℤ) : F32 :=
  let m : ℕ := digitsToNat (ip ++ fp)
  let e2 : ℤ := e - (fp.length : ℤ)
  let nd : ℕ × ℕ :=
    if 0 ≤ e2 then (m * 10 ^ e2.toNat, 1) else (m, 10 ^ (-e2).toNat)
  match roundF32Pos nd.1 nd.2 with
  | none => if neg then F32.neginf else F32.inf
  | some (n, k) =>
    if n = 0 then (if neg then F32.negzero else F32.finite 0)
    else F32.finite (pow2MulS neg n k)

/-- Rust `"...".parse::<f32>()`: the grammar `[+-]? (inf | infinity | nan
| digits [. digits?] | . digits) ([eE] [+-]? digits)?` (case-insensitive
special tokens, nothing may follow), the accepted decimal rounded to the
nearest binary32 value by `mkF32`. -/
def parseF32 (s : Str) : Option F32 :=
  let (neg, r) := readSign s
  let low := toLowerStr r
  if low == str "inf" || low == str "infinity" then
    some (if neg then F32.neginf else F32.inf)
  else if low == str "nan" then some F32.nan
  else
    let ip := r.takeWhile Char.isDigit
    let r1 := r.dropWhile Char.isDigit
    let (fp, r3) :=
      match r1 with
      | '.' :: r2 => (r2.takeWhile Char.isDigit, r2.dropWhile Char.isDigit)
      | _ => ([], r1)
    if ip.isEmpty && fp.isEmpty then none
    else
      match r3 with
      | [] => some (mkF32 neg ip fp 0)
      | c :: r4 =>
        if c == 'e' || c == 'E' then
          let (eneg, r5) := readSign r4
          let ed := r5.takeWhile Char.isDigit
          let r6 := r5.dropWhile Char.isDigit
          if ed.isEmpty || !r6.isEmpty then none
          else some (mkF32 neg ip fp
            (if eneg then -(digitsToNat ed : ℤ) else (digitsToNat ed : ℤ)))
        else none

/-- Rust `Duration::from_secs_f32` applied to a binary32 value: succeeds
with the value in seconds when it is finite, has a positive sign, and is
below `2^64` seconds; `none` models the panic raised for sign-negative
(the sign-bit check also rejects the negative zero), NaN, infinite, or
`≥ 2^64`-second values.  The exact `f32` seconds stand in for the
nanosecond-quantized `Duration` (see the file header). -/
def fromSecsF32 : F32 → Option ℚ
  | .finite q => if 0 ≤ q ∧ q < 18446744073709551616 then some q else none
  | .negzero => none
  | .inf => none
  | .neginf => none
  | .nan => none

/-- Which recognized tag an error refers to. -/
inductive TagKind : Type where
  | version
  | duration
  | segmentInfo
deriving DecidableEq

/-- Classification of the `anyhow::Error` values returned by
`parse_ext_m3u`, following the spec's error taxonomy.  The corresponding
source messages are: "Input contains no data", "Input doesn't start with
EXTM3U tag", "Playlist contains more than 1 version/duration tag",
"Version/Duration/Segment tag found, but could not parse", and
"Duration tag not found". -/
inductive ParseError : Type where
  | emptyInput
  | missingHeader
  | duplicateTag (k : TagKind)
  | malformedTag (k : TagKind)
  | missingRequiredTag (k : TagKind)
deriving DecidableEq

/-- Failure outcomes of a call: a returned `Err` value, or a panic (which
returns nothing at all). -/
inductive PFail : Type where
  | err (e : ParseError)
  | panic
deriving DecidableEq

/-- Rust struct `MediaSegment`: `duration` in exact seconds, `url` taken
verbatim from the input line. -/
structure MediaSegment : Type where
  duration : ℚ
  url : Str
deriving DecidableEq

/-- Rust struct `MediaPlaylist`; `target_duration` is a whole number of
seconds stored as `ℚ`, `version` a `u64` stored as `Nat`. -/
structure MediaPlaylist : Type where
  ended : Bool
  segments : List MediaSegment
  target_duration : ℚ
  version : Nat
deriving DecidableEq

instance {ε α : Type} [DecidableEq ε] [DecidableEq α] :
    DecidableEq (Except ε α) := fun a b =>
  match a, b with
  | .error e, .error f =>
    if h : e = f then .isTrue (congrArg Except.error h)
    else .isFalse (fun hh => h (Except.error.inj hh))
  | .ok x, .ok y =>
    if h : x = y then .isTrue (congrArg Except.ok h)
    else .isFalse (fun hh => h (Except.ok.inj hh))
  | .error _, .ok _ => .isFalse (fun hh => Except.noConfusion hh)
  | .ok _, .error _ => .isFalse (fun hh => Except.noConfusion hh)

/-- Source constant `HEADER_TAG`. -/
def HEADER_TAG : Str := str "#EXTM3U"
/-- Source constant `VERSION_TAG`. -/
def VERSION_TAG : Str := str "#EXT-X-VERSION"
/-- Source constant `VERSION_PRE`. -/
def VERSION_PRE : Str := str "#EXT-X-VERSION:"
/-- Source constant `ENDLIST_TAG`. -/
def ENDLIST_TAG : Str := str "#EXT-X-ENDLIST"
/-- Source constant `DURATION_TAG`. -/
def DURATION_TAG : Str := str "#EXT-X-TARGETDURATION"
/-- Source constant `DURATION_PRE`. -/
def DURATION_PRE : Str := str "#EXT-X-TARGETDURATION:"
/-- Source constant `SEGMENT_TAG`. -/
def SEGMENT_TAG : Str := str "#EXTINF"
/-- Source constant `SEGMENT_PRE`. -/
def SEGMENT_PRE : Str := str "#EXTINF:"

/-- Test `line.starts_with(SEGMENT_TAG)`. -/
def isSegTag (l : Str) : Bool := startsWith SEGMENT_TAG l
/-- Test `line.starts_with(BYTERANGE_TAG)` where `BYTERANGE_TAG` is the
source constant `"#EXT-X-BYTERANGE"`. -/
def isByteTag (l : Str) : Bool := startsWith (str "#EXT-X-BYTERANGE") l
/-- Test `line.starts_with(ENDLIST_TAG)`. -/
def isEndTag (l : Str) : Bool := startsWith ENDLIST_TAG l
/-- Test `line.starts_with(VERSION_TAG)`. -/
def isVerTag (l : Str) : Bool := startsWith VERSION_TAG l
/-- Test `line.starts_with(DURATION_TAG)`. -/
def isDurTag (l : Str) : Bool := startsWith DURATION_TAG l

/-- Version resolution, source lines 65-84: more than one line starting
with `VERSION_TAG` is a duplicate-tag error; with exactly one such line the
payload after `VERSION_PRE` must parse as `u64` (failure to strip the
prefix or to parse is a malformed-tag error); with none the version
defaults to 0. -/
def resolveVersion (lines : List Str) : Except PFail Nat :=
  if 1 < (lines.filter (fun x => isVerTag x)).length then
    .error (.err (.duplicateTag .version))
  else
    match lines.find? (fun x => isVerTag x) with
    | none => .ok 0
    | some vl =>
      match stripPre VERSION_PRE vl with
      | none => .error (.err (.malformedTag .version))
      | some vs =>
        match parseU64 vs with
        | some v => .ok v
        | none => .error (.err (.malformedTag .version))

/-- Target-duration resolution, source lines 86-105: more than one line
starting with `DURATION_TAG` is a duplicate-tag error; no such line is a
missing-required-tag error; with exactly one, a payload that strips and
parses as `u64` gives the duration in whole seconds, a payload that strips
but does not parse is a malformed-tag error, and a line from which
`DURATION_PRE` cannot be stripped silently leaves the default duration 0
(the source has no else branch for that case, unlike the version code). -/
def resolveDuration (lines : List Str) : Except PFail ℚ :=
  if 1 < (lines.filter (fun x => isDurTag x)).length then
    .error (.err (.duplicateTag .duration))
  else
    match lines.find? (fun x => isDurTag x) with
    | none => .error (.err (.missingRequiredTag .duration))
    | some dl =>
      match stripPre DURATION_PRE dl with
      | none => .ok 0
      | some ds =>
        match parseU64 ds with
        | some d => .ok (d : ℚ)
        | none => .error (.err (.malformedTag .duration))

/-- Segment-collection loop, source lines 107-139, over the remaining
lines with the `new_segment` flag (`pending`) and the current
`segment_duration` (`dur`).  A line starting with `SEGMENT_TAG` sets the
flag and, when `SEGMENT_PRE` strips, parses the first comma field as `f32`
(parse failure is a malformed-tag error; `Duration::from_secs_f32` may
panic); lines starting with the byte-range or end-list tags are ignored;
any other line while the flag is set becomes the URL of a new segment with
the current duration and clears the flag. -/
def segLoop : Bool → ℚ → List Str → Except PFail (List MediaSegment)
  | _, _, [] => .ok []
  | pending, dur, l :: ls =>
    if isSegTag l then
      match stripPre SEGMENT_PRE l with
      | none => segLoop true dur ls
      | some info =>
        match parseF32 (firstField info) with
        | none => .error (.err (.malformedTag .segmentInfo))
        | some v =>
          match fromSecsF32 v with
          | none => .error .panic
          | some d => segLoop true d ls
    else if isByteTag l then segLoop pending dur ls
    else if isEndTag l then segLoop pending dur ls
    else if pending then
      (segLoop false dur ls).map (fun segs => ⟨dur, l⟩ :: segs)
    else segLoop false dur ls

/-- Body of `MediaPlaylist::parse_ext_m3u` after line splitting: empty
check, header check, version and duration resolution, segment collection,
and the independent end-of-list detection (`lines.iter().any(|x| x ==
&ENDLIST_TAG)`, an exact comparison). -/
def parseLines : List Str → Except PFail MediaPlaylist
  | [] => .error (.err .emptyInput)
  | l0 :: rest =>
    if l0 = HEADER_TAG then
      match resolveVersion (l0 :: rest) with
      | .error e => .error e
      | .ok v =>
        match resolveDuration (l0 :: rest) with
        | .error e => .error e
        | .ok d =>
          match segLoop false 0 (l0 :: rest) with
          | .error e => .error e
          | .ok segs =>
            .ok { ended := (l0 :: rest).any (fun x => x == ENDLIST_TAG)
                , segments := segs
                , target_duration := d
                , version := v }
    else .error (.err .missingHeader)

/-- `MediaPlaylist::parse_ext_m3u`: split the input into lines and parse. -/
def parse_ext_m3u (s : Str) : Except PFail MediaPlaylist :=
  parseLines (rustLines s)

/-- Text of the "Big Buck Bunny" playlist from the source's test module
(the `indoc!` literal, with its trailing newline). -/
def bbbText : Str := str "#EXTM3U\n#EXT-X-VERSION:4\n#EXT-X-ALLOW-CACHE:NO\n#EXT-X-TARGETDURATION:20\n#EXT-X-MEDIA-SEQUENCE:1\n#EXT-X-PROGRAM-DATE-TIME:2015-08-25T01:59:23.708+00:00\n#EXTINF:12.166,\n#EXT-X-BYTERANGE:1430680@4048392\nsegment_1440468394459_1440468394459_1.ts\n#EXTINF:13.292,\n#EXT-X-BYTERANGE:840360@5479072\nsegment_1440468394459_1440468394459_1.ts\n#EXTINF:10.500,\n#EXT-X-BYTERANGE:1009184@6319432\nsegment_1440468394459_1440468394459_1.ts\n#EXTINF:11.417,\n#EXT-X-BYTERANGE:806332@0\nsegment_1440468394459_1440468394459_2.ts\n#EXTINF:12.459,\n#EXT-X-BYTERANGE:701616@806332\nsegment_1440468394459_1440468394459_2.ts\n#EXTINF:14.000,\n#EXT-X-BYTERANGE:931352@1507948\nsegment_1440468394459_1440468394459_2.ts\n#EXTINF:19.292,\n#EXT-X-BYTERANGE:1593676@2439300\nsegment_1440468394459_1440468394459_2.ts\n#EXTINF:7.834,\n#EXT-X-BYTERANGE:657812@4032976\nsegment_1440468394459_1440468394459_2.ts\n#EXT-X-ENDLIST\n"

/-- First URL of the Big Buck Bunny playlist. -/
def url1 : Str := str "segment_1440468394459_1440468394459_1.ts"
/-- Second URL of the Big Buck Bunny playlist. -/
def url2 : Str := str "segment_1440468394459_1440468394459_2.ts"

/-- The playlist value the Big Buck Bunny text actually parses to: the
eight segments of the source text, in order, with their literal durations
(each the exact value of the `f32` its decimal literal rounds to) and
URLs. -/
def bbbPlaylist : MediaPlaylist :=
  { ended := true
  , segments :=
      [ ⟨mkRat 797311 65536, url1⟩, ⟨mkRat 1742209 131072, url1⟩, ⟨mkRat 21 2, url1⟩
      , ⟨mkRat 1496449 131072, url2⟩, ⟨mkRat 816513 65536, url2⟩, ⟨14, url2⟩
      , ⟨mkRat 2528641 131072, url2⟩, ⟨mkRat 16429089 2097152, url2⟩ ]
  , target_duration := 20
  , version := 4 }

/-- Test whether a line is skipped by the byte-range/end-list cases of the
segment-collection loop (such a line never becomes a URL and never changes
the pending state). -/
def isRelevant (l : Str) : Bool := !isByteTag l && !isEndTag l

/-- First line of `ls` that the segment loop does not skip as a byte-range
or end-list tag. -/
def nextRelevant (ls : List Str) : Option Str := ls.find? (fun x => isRelevant x)

/-- The URL line a segment-info tag at the head of the input would be
discharged by: the next relevant line, provided it is not itself a
segment-info tag. -/
def urlWitness (ls : List Str) : Option Str :=
  match nextRelevant ls with
  | some u => if isSegTag u then none else some u
  | none => none

/-- Following the claim's words: the URL lines of the input, in order of
appearance, each one witnessing a segment-info tag that is followed
(skipping byte-range and end-of-list lines) by a capturable line. -/
def specUrls : List Str → List Str
  | [] => []
  | l :: ls => (if isSegTag l then (urlWitness ls).toList else []) ++ specUrls ls

/-- Following the claim's words: the number of segment-info tags that are
each followed (skipping byte-range and end-of-list lines) by a capturable
line. -/
def specSegCount : List Str → Nat
  | [] => 0
  | l :: ls => (if isSegTag l && (urlWitness ls).isSome then 1 else 0) + specSegCount ls

/-- State-passing form of the URL collection (bridges the stateful loop of
the source and the lookahead characterization of the claim). -/
def specUrlsAux : Bool → List Str → List Str
  | _, [] => []
  | pending, l :: ls =>
    if isSegTag l then specUrlsAux true ls
    else if isByteTag l then specUrlsAux pending ls
    else if isEndTag l then specUrlsAux pending ls
    else if pending then l :: specUrlsAux false ls
    else specUrlsAux false ls

/-- A line that cannot make the segment loop fail: either it is not an
`#EXTINF:` line, or its first comma field parses as an `f32` that
`Duration::from_secs_f32` accepts. -/
def validSegLine (l : Str) : Bool :=
  match stripPre SEGMENT_PRE l with
  | none => true
  | some info => ((parseF32 (firstField info)).bind fromSecsF32).isSome

/-- First line is exactly the header tag. -/
def headerOkB (lines : List Str) : Bool :=
  match lines with
  | [] => false
  | l0 :: _ => l0 == HEADER_TAG

/-- At most one version-tagged line, and every such line has a payload that
strips and parses as `u64`. -/
def versionOkB (lines : List Str) : Bool :=
  decide ((lines.filter (fun x => isVerTag x)).length ≤ 1)
    && (lines.filter (fun x => isVerTag x)).all
        (fun x => ((stripPre VERSION_PRE x).bind parseU64).isSome)

/-- Exactly one duration-tagged line, and every such line has a payload
that strips and parses as `u64`. -/
def durationOkB (lines : List Str) : Bool :=
  ((lines.filter (fun x => isDurTag x)).length == 1)
    && (lines.filter (fun x => isDurTag x)).all
        (fun x => ((stripPre DURATION_PRE x).bind parseU64).isSome)

/-- Hypotheses of claim C2 as stated: header line, exactly one
target-duration tag with valid payload, at most one version tag with valid
payload. -/
def c2OrigHyp (lines : List Str) : Bool :=
  headerOkB lines && durationOkB lines && versionOkB lines

/-- Amended hypotheses of claim C2: additionally every `#EXTINF:` payload
must parse as an acceptable `f32` (otherwise the parse errors or panics
instead of succeeding). -/
def c2Hyp (lines : List Str) : Bool :=
  c2OrigHyp lines && lines.all validSegLine

/-- Hypotheses of claim C3 restricted to the case where the single
duration-tagged line strips at the colon but its payload does not parse as
`u64` (plus the header/version conditions the claim leaves implicit). -/
def c3MalformedHyp (lines : List Str) : Bool :=
  headerOkB lines && versionOkB lines
    && ((lines.filter (fun x => isDurTag x)).length == 1)
    && (lines.filter (fun x => isDurTag x)).all
        (fun x => (stripPre DURATION_PRE x).isSome
          && !((stripPre DURATION_PRE x).bind parseU64).isSome)

/-- Hypotheses of claim C3 restricted to the case where the single
duration-tagged line does not carry the colon-delimited prefix at all
(plus the header/version/segment conditions needed for overall success). -/
def c3NoColonHyp (lines : List Str) : Bool :=
  headerOkB lines && versionOkB lines
    && ((lines.filter (fun x => isDurTag x)).length == 1)
    && (lines.filter (fun x => isDurTag x)).all
        (fun x => !(stripPre DURATION_PRE x).isSome)
    && lines.all validSegLine

/-- Counterexample input for C2: all of the claim's stated hypotheses hold
but the `#EXTINF` payload is malformed. -/
def c2Text : Str := str "#EXTM3U\n#EXT-X-TARGETDURATION:5\n#EXTINF:abc,\nu.ts"

/-- Well-formed input used to witness C2. -/
def c2wText : Str := str "#EXTM3U\n#EXT-X-TARGETDURATION:20\n#EXTINF:2,\nu1\n#EXT-X-ENDLIST"

/-- Counterexample input for C3: a duration tag with no colon. -/
def c3Text : Str := str "#EXTM3U\n#EXT-X-TARGETDURATION"

/-- Counterexample input for C4: a line that starts with the end-of-list
tag without being equal to it, placed where the claim says it would be
captured as a URL. -/
def c4Text : Str := str "#EXTM3U\n#EXT-X-TARGETDURATION:5\n#EXTINF:1,\n#EXT-X-ENDLISTXX\nu.ts"

/-- Witness input for C5: two version tags. -/
def c5Text : Str := str "#EXTM3U\n#EXT-X-VERSION:1\n#EXT-X-VERSION:1"

/-- Witness input for C6: an end-of-list tag present. -/
def c6Text : Str := str "#EXTM3U\n#EXT-X-TARGETDURATION:5\n#EXT-X-ENDLIST"

/-- Input for C8: a negative `#EXTINF` duration, which makes
`Duration::from_secs_f32` panic. -/
def c8Text : Str := str "#EXTM3U\n#EXT-X-TARGETDURATION:5\n#EXTINF:-1,"

/-- Input for C9: a bare `#EXTINF` line after a parsed one; the second
segment inherits the most recently parsed duration. -/
def c9aText : Str := str "#EXTM3U\n#EXT-X-TARGETDURATION:5\n#EXTINF:2,\nu1\n#EXTINF\nu2"

/-- Input for C9: a bare `#EXTINF` line with no earlier parsed duration;
the segment gets duration zero. -/
def c9bText : Str := str "#EXTM3U\n#EXT-X-TARGETDURATION:5\n#EXTINF\nu"

/-- Input for C10: the header tag, the (single) version tag line, an empty
line and an unrecognized tag line each captured verbatim as URLs. -/
def c10aText : Str := str "#EXTM3U\n#EXT-X-TARGETDURATION:5\n#EXTINF:1,\n#EXTM3U\n#EXTINF:2,\n#EXT-X-VERSION:3\n#EXTINF:3,\n\n#EXTINF:4,\n#EXT-X-FOO:bar"

/-- Input for C10: the (single) target-duration tag line itself captured as
a URL when it follows an `#EXTINF` tag. -/
def c10bText : Str := str "#EXTM3U\n#EXTINF:1,\n#EXT-X-TARGETDURATION:7\nx"

/-- Explicit character list of `SEGMENT_TAG`. -/
lemma SEGMENT_TAG_eq : SEGMENT_TAG = ['#', 'E', 'X', 'T', 'I', 'N', 'F'] := rfl

/-- Explicit character list of the byte-range tag. -/
lemma BYTERANGE_TAG_eq : str "#EXT-X-BYTERANGE"
    = ['#', 'E', 'X', 'T', '-', 'X', '-', 'B', 'Y', 'T', 'E', 'R', 'A', 'N', 'G', 'E'] := rfl

/-- Explicit character list of `ENDLIST_TAG`. -/
lemma ENDLIST_TAG_eq : ENDLIST_TAG
    = ['#', 'E', 'X', 'T', '-', 'X', '-', 'E', 'N', 'D', 'L', 'I', 'S', 'T'] := rfl

/-- Validation of the binary32 rounding model on reference values:
round-to-nearest-ties-even at the 24-bit significand (`16777217` rounds
down to the even `16777216`, `16777219` up to `16777220`), `0.1` to
`13421773 / 2^27`, and `123.456e-2` to `647265 / 2^19`. -/
lemma parseF32_rounding_checks :
    parseF32 (str "16777217") = some (.finite 16777216) ∧
    parseF32 (str "16777219") = some (.finite 16777220) ∧
    parseF32 (str "0.1") = some (.finite (mkRat 13421773 134217728)) ∧
    parseF32 (str "123.456e-2") = some (.finite (mkRat 647265 524288)) :=
  ⟨by decide, by decide, by decide, by decide⟩

/-- Validation of the binary32 model at the extremes: subnormals round to
multiples of `2^-149` (underflowing to zero below half of it), values at
or above `2^128 - 2^103` overflow to infinity, and a negative literal that
rounds to zero gives the negative zero, which `Duration::from_secs_f32`
rejects. -/
lemma parseF32_extreme_checks :
    parseF32 (str "1e-45")
      = some (.finite (mkRat 1 713623846352979940529142984724747568191373312)) ∧
    parseF32 (str "9.999999e-44")
      = some (.finite (mkRat 71 713623846352979940529142984724747568191373312)) ∧
    parseF32 (str "7e-46") = some (.finite 0) ∧
    parseF32 (str "3.4028236e38") = some .inf ∧
    parseF32 (str "1e39") = some .inf ∧
    parseF32 (str "-0") = some .negzero ∧
    fromSecsF32 .negzero = none :=
  ⟨by decide, by decide, by decide, by decide, by decide, by decide, by decide⟩

/-- Validation at the `u64` boundary: the decimal `18446744073709551615`
(that is, `2^64 - 1`) rounds up to the binary32 value `2^64` exactly, so
`Duration::from_secs_f32` overflows and panics, and a playlist carrying it
as an `#EXTINF` payload makes the whole call abort. -/
lemma parseF32_u64_boundary :
    parseF32 (str "18446744073709551615")
      = some (.finite (mkRat 18446744073709551616 1)) ∧
    (parseF32 (str "18446744073709551615")).bind fromSecsF32 = none ∧
    parse_ext_m3u
        (str "#EXTM3U\n#EXT-X-TARGETDURATION:5\n#EXTINF:18446744073709551615,\nu.ts")
      = .error .panic :=
  ⟨by decide, by decide, by decide⟩

/-- A line starting with the segment-info tag starts with neither the
byte-range nor the end-of-list tag (they differ at the fifth character). -/
lemma seg_excl (l : Str) (h : isSegTag l = true) :
    isByteTag l = false ∧ isEndTag l = false := by
  rw [isSegTag, SEGMENT_TAG_eq] at h
  rw [isByteTag, BYTERANGE_TAG_eq, isEndTag, ENDLIST_TAG_eq]
  rcases l with _ | ⟨c0, _ | ⟨c1, _ | ⟨c2, _ | ⟨c3, _ | ⟨c4, l⟩⟩⟩⟩⟩ <;>
    simp_all [startsWith]
  obtain ⟨-, -, -, -, h4, -⟩ := h
  exact ⟨fun _ _ _ _ hc4 => absurd (h4.trans hc4.symm) (by decide),
    fun _ _ _ _ hc4 => absurd (h4.trans hc4.symm) (by decide)⟩

/-- Loop step: a segment-info line whose `#EXTINF:` prefix does not strip
only sets the pending flag. -/
lemma segLoop_seg_nostrip (pending : Bool) (dur : ℚ) (l : Str) (ls : List Str)
    (hseg : isSegTag l = true) (hstrip : stripPre SEGMENT_PRE l = none) :
    segLoop pending dur (l :: ls) = segLoop true dur ls := by
  simp [segLoop, hseg, hstrip]

/-- Loop step: a segment-info line with an acceptable payload sets the
pending flag and replaces the pending duration. -/
lemma segLoop_seg_ok (pending : Bool) (dur : ℚ) (l : Str) (ls : List Str)
    (info : Str) (v : F32) (d : ℚ)
    (hseg : isSegTag l = true) (hstrip : stripPre SEGMENT_PRE l = some info)
    (hp : parseF32 (firstField info) = some v) (hdv : fromSecsF32 v = some d) :
    segLoop pending dur (l :: ls) = segLoop true d ls := by
  simp [segLoop, hseg, hstrip, hp, hdv]

/-- Loop step: a segment-info payload that does not parse as `f32` aborts
with the malformed-segment-info error. -/
lemma segLoop_seg_badparse (pending : Bool) (dur : ℚ) (l : Str) (ls : List Str)
    (info : Str)
    (hseg : isSegTag l = true) (hstrip : stripPre SEGMENT_PRE l = some info)
    (hp : parseF32 (firstField info) = none) :
    segLoop pending dur (l :: ls) = .error (.err (.malformedTag .segmentInfo)) := by
  simp [segLoop, hseg, hstrip, hp]

/-- Loop step: a parsed `f32` that `Duration::from_secs_f32` rejects makes
the call panic. -/
lemma segLoop_seg_panic (pending : Bool) (dur : ℚ) (l : Str) (ls : List Str)
    (info : Str) (v : F32)
    (hseg : isSegTag l = true) (hstrip : stripPre SEGMENT_PRE l = some info)
    (hp : parseF32 (firstField info) = some v) (hdv : fromSecsF32 v = none) :
    segLoop pending dur (l :: ls) = .error .panic := by
  simp [segLoop, hseg, hstrip, hp, hdv]

/-- Loop step: a byte-range line is skipped with no state change. -/
lemma segLoop_byte (pending : Bool) (dur : ℚ) (l : Str) (ls : List Str)
    (hseg : isSegTag l = false) (hbyte : isByteTag l = true) :
    segLoop pending dur (l :: ls) = segLoop pending dur ls := by
  simp [segLoop, hseg, hbyte]

/-- Loop step: a line starting with the end-of-list tag is skipped with no
state change. -/
lemma segLoop_end (pending : Bool) (dur : ℚ) (l : Str) (ls : List Str)
    (hseg : isSegTag l = false) (hbyte : isByteTag l = false)
    (hend : isEndTag l = true) :
    segLoop pending dur (l :: ls) = segLoop pending dur ls := by
  simp [segLoop, hseg, hbyte, hend]

/-- Loop step: with a pending duration, any other line is captured
verbatim as the URL of a new segment and the flag is cleared. -/
lemma segLoop_url (dur : ℚ) (l : Str) (ls : List Str)
    (hseg : isSegTag l = false) (hbyte : isByteTag l = false)
    (hend : isEndTag l = false) :
    segLoop true dur (l :: ls)
      = (segLoop false dur ls).map (fun segs => ⟨dur, l⟩ :: segs) := by
  simp [segLoop, hseg, hbyte, hend]

/-- Loop step: with no pending duration, any other line is skipped. -/
lemma segLoop_skip (dur : ℚ) (l : Str) (ls : List Str)
    (hseg : isSegTag l = false) (hbyte : isByteTag l = false)
    (hend : isEndTag l = false) :
    segLoop false dur (l :: ls) = segLoop false dur ls := by
  simp [segLoop, hseg, hbyte, hend]

/-- Step equation: a segment-info line switches the collection state to
pending. -/
lemma specAux_seg (pending : Bool) (l : Str) (ls : List Str)
    (hseg : isSegTag l = true) :
    specUrlsAux pending (l :: ls) = specUrlsAux true ls := by
  simp [specUrlsAux, hseg]

/-- Step equation: a byte-range line changes nothing. -/
lemma specAux_byte (pending : Bool) (l : Str) (ls : List Str)
    (hseg : isSegTag l = false) (hbyte : isByteTag l = true) :
    specUrlsAux pending (l :: ls) = specUrlsAux pending ls := by
  simp [specUrlsAux, hseg, hbyte]

/-- Step equation: an end-of-list line changes nothing. -/
lemma specAux_end (pending : Bool) (l : Str) (ls : List Str)
    (hseg : isSegTag l = false) (hbyte : isByteTag l = false)
    (hend : isEndTag l = true) :
    specUrlsAux pending (l :: ls) = specUrlsAux pending ls := by
  simp [specUrlsAux, hseg, hbyte, hend]

/-- Step equation: a capturable line while pending is collected. -/
lemma specAux_url (l : Str) (ls : List Str)
    (hseg : isSegTag l = false) (hbyte : isByteTag l = false)
    (hend : isEndTag l = false) :
    specUrlsAux true (l :: ls) = l :: specUrlsAux false ls := by
  simp [specUrlsAux, hseg, hbyte, hend]

/-- Step equation: a capturable line while not pending is skipped. -/
lemma specAux_skip (l : Str) (ls : List Str)
    (hseg : isSegTag l = false) (hbyte : isByteTag l = false)
    (hend : isEndTag l = false) :
    specUrlsAux false (l :: ls) = specUrlsAux false ls := by
  simp [specUrlsAux, hseg, hbyte, hend]

/-- When every `#EXTINF:` payload is acceptable, the segment loop succeeds
and its URLs are the ones the state-passing collection describes. -/
lemma segLoop_spec (ls : List Str) : ∀ (pending : Bool) (dur : ℚ),
    ls.all validSegLine = true →
    ∃ segs, segLoop pending dur ls = .ok segs ∧
      segs.map (fun sg => sg.url) = specUrlsAux pending ls := by
  induction ls with
  | nil => exact fun pending dur _ => ⟨[], rfl, rfl⟩
  | cons l ls ih =>
    intro pending dur hall
    rw [List.all_cons, Bool.and_eq_true] at hall
    obtain ⟨hl, hls⟩ := hall
    by_cases hseg : isSegTag l = true
    · cases hstrip : stripPre SEGMENT_PRE l with
      | none =>
        obtain ⟨segs, e1, e2⟩ := ih true dur hls
        refine ⟨segs, ?_, ?_⟩
        · rw [segLoop_seg_nostrip pending dur l ls hseg hstrip]; exact e1
        · rw [specAux_seg pending l ls hseg]; exact e2
      | some info =>
        have hl2 : ((parseF32 (firstField info)).bind fromSecsF32).isSome = true := by
          rw [validSegLine, hstrip] at hl; exact hl
        cases hp : parseF32 (firstField info) with
        | none => rw [hp] at hl2; simp at hl2
        | some v =>
          cases hdv : fromSecsF32 v with
          | none => rw [hp] at hl2; simp [hdv] at hl2
          | some d =>
            obtain ⟨segs, e1, e2⟩ := ih true d hls
            refine ⟨segs, ?_, ?_⟩
            · rw [segLoop_seg_ok pending dur l ls info v d hseg hstrip hp hdv]
              exact e1
            · rw [specAux_seg pending l ls hseg]; exact e2
    · rw [Bool.not_eq_true] at hseg
      by_cases hbyte : isByteTag l = true
      · obtain ⟨segs, e1, e2⟩ := ih pending dur hls
        refine ⟨segs, ?_, ?_⟩
        · rw [segLoop_byte pending dur l ls hseg hbyte]; exact e1
        · rw [specAux_byte pending l ls hseg hbyte]; exact e2
      · rw [Bool.not_eq_true] at hbyte
        by_cases hend : isEndTag l = true
        · obtain ⟨segs, e1, e2⟩ := ih pending dur hls
          refine ⟨segs, ?_, ?_⟩
          · rw [segLoop_end pending dur l ls hseg hbyte hend]; exact e1
          · rw [specAux_end pending l ls hseg hbyte hend]; exact e2
        · rw [Bool.not_eq_true] at hend
          cases pending with
          | true =>
            obtain ⟨segs, e1, e2⟩ := ih false dur hls
            refine ⟨⟨dur, l⟩ :: segs, ?_, ?_⟩
            · rw [segLoop_url dur l ls hseg hbyte hend, e1]; rfl
            · rw [specAux_url l ls hseg hbyte hend]; simp [e2]
          | false =>
            obtain ⟨segs, e1, e2⟩ := ih false dur hls
            refine ⟨segs, ?_, ?_⟩
            · rw [segLoop_skip dur l ls hseg hbyte hend]; exact e1
            · rw [specAux_skip l ls hseg hbyte hend]; exact e2

/-- The state-passing collection agrees with the lookahead
characterization of the claim: from the idle state it produces exactly the
witnessed URL lines, and from the pending state additionally the first
capturable line. -/
lemma specAux_spec (ls : List Str) :
    specUrlsAux false ls = specUrls ls ∧
      specUrlsAux true ls = (urlWitness ls).toList ++ specUrls ls := by
  induction ls with
  | nil => exact ⟨rfl, rfl⟩
  | cons l ls ih =>
    obtain ⟨ih0, ih1⟩ := ih
    by_cases hseg : isSegTag l = true
    · obtain ⟨hbyte, hend⟩ := seg_excl l hseg
      have hrel : isRelevant l = true := by simp [isRelevant, hbyte, hend]
      have hnr : nextRelevant (l :: ls) = some l := by
        rw [nextRelevant, List.find?_cons_of_pos _ hrel]
      have hw : urlWitness (l :: ls) = none := by
        rw [urlWitness, hnr]; simp [hseg]
      constructor
      · rw [specAux_seg false l ls hseg, ih1]; simp [specUrls, hseg]
      · rw [specAux_seg true l ls hseg, ih1, hw]; simp [specUrls, hseg]
    · rw [Bool.not_eq_true] at hseg
      by_cases hbyte : isByteTag l = true
      · have hrel : isRelevant l = false := by simp [isRelevant, hbyte]
        have hnr : nextRelevant (l :: ls) = nextRelevant ls := by
          rw [nextRelevant, nextRelevant, List.find?_cons_of_neg _ (by simp [hrel])]
        have hw : urlWitness (l :: ls) = urlWitness ls := by
          rw [urlWitness, hnr, urlWitness]
        constructor
        · rw [specAux_byte false l ls hseg hbyte, ih0]; simp [specUrls, hseg]
        · rw [specAux_byte true l ls hseg hbyte, ih1, hw]; simp [specUrls, hseg]
      · rw [Bool.not_eq_true] at hbyte
        by_cases hend : isEndTag l = true
        · have hrel : isRelevant l = false := by simp [isRelevant, hbyte, hend]
          have hnr : nextRelevant (l :: ls) = nextRelevant ls := by
            rw [nextRelevant, nextRelevant, List.find?_cons_of_neg _ (by simp [hrel])]
          have hw : urlWitness (l :: ls) = urlWitness ls := by
            rw [urlWitness, hnr, urlWitness]
          constructor
          · rw [specAux_end false l ls hseg hbyte hend, ih0]; simp [specUrls, hseg]
          · rw [specAux_end true l ls hseg hbyte hend, ih1, hw]; simp [specUrls, hseg]
        · rw [Bool.not_eq_true] at hend
          have hrel : isRelevant l = true := by simp [isRelevant, hbyte, hend]
          have hnr : nextRelevant (l :: ls) = some l := by
            rw [nextRelevant, List.find?_cons_of_pos _ hrel]
          have hw : urlWitness (l :: ls) = some l := by
            rw [urlWitness, hnr]; simp [hseg]
          constructor
          · rw [specAux_skip l ls hseg hbyte hend, ih0]; simp [specUrls, hseg]
          · rw [specAux_url l ls hseg hbyte hend, ih0, hw]; simp [specUrls, hseg]

/-- The claimed segment count is the number of witnessed URL lines. -/
lemma specSegCount_eq (ls : List Str) :
    specSegCount ls = (specUrls ls).length := by
  induction ls with
  | nil => rfl
  | cons l ls ih =>
    rw [specSegCount, specUrls, List.length_append, ih]
    by_cases hseg : isSegTag l = true
    · cases hw : urlWitness ls with
      | none => simp [hseg, hw]
      | some u => simp [hseg, hw]
    · rw [Bool.not_eq_true] at hseg
      simp [hseg]

/-- When at most one line is version-tagged and any such line has a valid
payload, version resolution succeeds. -/
lemma resolveVersion_ok (lines : List Str) (h : versionOkB lines = true) :
    ∃ v, resolveVersion lines = .ok v := by
  rw [versionOkB, Bool.and_eq_true, decide_eq_true_eq] at h
  obtain ⟨h1, h2⟩ := h
  have hlt : ¬ 1 < (lines.filter (fun x => isVerTag x)).length := by omega
  cases hf : lines.find? (fun x => isVerTag x) with
  | none => exact ⟨0, by simp [resolveVersion, hlt, hf]⟩
  | some vl =>
    have hval : ((stripPre VERSION_PRE vl).bind parseU64).isSome = true :=
      List.all_eq_true.mp h2 vl (List.mem_filter.mpr
        ⟨List.mem_of_find?_eq_some hf, List.find?_some hf⟩)
    cases hs : stripPre VERSION_PRE vl with
    | none => rw [hs] at hval; simp at hval
    | some vs =>
      cases hu : parseU64 vs with
      | none => rw [hs] at hval; simp [hu] at hval
      | some v => exact ⟨v, by simp [resolveVersion, hlt, hf, hs, hu]⟩

/-- A predicate matched by exactly one list element is found by `find?`. -/
lemma find?_of_filter_one (p : Str → Bool) (lines : List Str)
    (h : (lines.filter p).length = 1) :
    ∃ x, lines.find? p = some x ∧ x ∈ lines ∧ p x = true := by
  cases hf : lines.find? p with
  | some x => exact ⟨x, rfl, List.mem_of_find?_eq_some hf, List.find?_some hf⟩
  | none =>
    have hfil : lines.filter p = [] :=
      List.filter_eq_nil_iff.mpr (List.find?_eq_none.mp hf)
    rw [hfil] at h
    simp at h

/-- When exactly one line is duration-tagged and its payload strips and
parses, duration resolution succeeds with that whole-second value. -/
lemma resolveDuration_ok (lines : List Str) (h : durationOkB lines = true) :
    ∃ d : ℕ, resolveDuration lines = .ok (d : ℚ) := by
  rw [durationOkB, Bool.and_eq_true] at h
  obtain ⟨h1, h2⟩ := h
  have h1' : (lines.filter (fun x => isDurTag x)).length = 1 := beq_iff_eq.mp h1
  obtain ⟨dl, hf, hmem, hp⟩ := find?_of_filter_one _ _ h1'
  have hval : ((stripPre DURATION_PRE dl).bind parseU64).isSome = true :=
    List.all_eq_true.mp h2 dl (List.mem_filter.mpr ⟨hmem, hp⟩)
  have hlt : ¬ 1 < (lines.filter (fun x => isDurTag x)).length := by omega
  cases hs : stripPre DURATION_PRE dl with
  | none => rw [hs] at hval; simp at hval
  | some ds =>
    cases hu : parseU64 ds with
    | none => rw [hs] at hval; simp [hu] at hval
    | some d => exact ⟨d, by simp [resolveDuration, hlt, hf, hs, hu]⟩

/-- When the single duration-tagged line strips at the colon but its
payload does not parse as `u64`, duration resolution fails with the
malformed-duration error. -/
lemma resolveDuration_malformed (lines : List Str)
    (h1 : (lines.filter (fun x => isDurTag x)).length = 1)
    (h2 : (lines.filter (fun x => isDurTag x)).all
        (fun x => (stripPre DURATION_PRE x).isSome
          && !((stripPre DURATION_PRE x).bind parseU64).isSome) = true) :
    resolveDuration lines = .error (.err (.malformedTag .duration)) := by
  obtain ⟨dl, hf, hmem, hp⟩ := find?_of_filter_one _ _ h1
  have hval := List.all_eq_true.mp h2 dl (List.mem_filter.mpr ⟨hmem, hp⟩)
  rw [Bool.and_eq_true] at hval
  obtain ⟨hsome, hnot⟩ := hval
  have hlt : ¬ 1 < (lines.filter (fun x => isDurTag x)).length := by omega
  cases hs : stripPre DURATION_PRE dl with
  | none => rw [hs] at hsome; simp at hsome
  | some ds =>
    cases hu : parseU64 ds with
    | some d => rw [hs] at hnot; simp [hu] at hnot
    | none => simp [resolveDuration, hlt, hf, hs, hu]

/-- When the single duration-tagged line does not carry the colon prefix,
duration resolution silently succeeds with the default duration 0. -/
lemma resolveDuration_nocolon (lines : List Str)
    (h1 : (lines.filter (fun x => isDurTag x)).length = 1)
    (h2 : (lines.filter (fun x => isDurTag x)).all
        (fun x => !(stripPre DURATION_PRE x).isSome) = true) :
    resolveDuration lines = .ok 0 := by
  obtain ⟨dl, hf, hmem, hp⟩ := find?_of_filter_one _ _ h1
  have hval := List.all_eq_true.mp h2 dl (List.mem_filter.mpr ⟨hmem, hp⟩)
  have hlt : ¬ 1 < (lines.filter (fun x => isDurTag x)).length := by omega
  cases hs : stripPre DURATION_PRE dl with
  | none => simp [resolveDuration, hlt, hf, hs]
  | some ds => rw [hs] at hval; simp at hval

/-- Evaluation of the parser on the Big Buck Bunny text. -/
lemma bbb_parse_eq : parse_ext_m3u bbbText = .ok bbbPlaylist := by decide

/-- C1: the claim as stated is false at the Big Buck Bunny input, because
the playlist text contains eight `#EXTINF`/byte-range/URL triples, not
nine: the parse succeeds but the segment sequence has 8 elements. -/
theorem c1_counterexample :
    parse_ext_m3u bbbText = .ok bbbPlaylist ∧ bbbPlaylist.segments.length ≠ 9 :=
  ⟨bbb_parse_eq, by decide⟩

/-- C1 (amended): parsing the Big Buck Bunny playlist text succeeds and
yields version 4, a target duration of 20 whole seconds, `ended = true`,
and an 8-element ordered segment sequence whose durations and URLs equal
the literal values of the source text in order, the first segment having
the duration parsed from `12.166` seconds and the URL
`segment_1440468394459_1440468394459_1.ts`. -/
theorem c1_theorem :
    parse_ext_m3u bbbText = .ok bbbPlaylist ∧
    bbbPlaylist.version = 4 ∧
    bbbPlaylist.target_duration = 20 ∧
    bbbPlaylist.ended = true ∧
    bbbPlaylist.segments.length = 8 ∧
    (parseF32 (str "12.166")).bind fromSecsF32
      = some (bbbPlaylist.segments.headD ⟨0, []⟩).duration ∧
    (bbbPlaylist.segments.headD ⟨0, []⟩).url = url1 :=
  ⟨bbb_parse_eq, by decide, by decide, by decide, by decide, by decide, by decide⟩

/-- C4: the claim as stated is false: during the segment-collection pass
the source ignores any line *starting with* the end-of-list tag, not only a
line exactly equal to it.  On the counterexample input the line
`#EXT-X-ENDLISTXX` follows an `#EXTINF` tag while a duration is pending and
does not start with the segment-info or byte-range prefixes, so the claim
says it becomes the segment's URL; the code skips it and captures the later
`u.ts` line instead. -/
theorem c4_counterexample :
    parse_ext_m3u c4Text = .ok ⟨false, [⟨1, str "u.ts"⟩], 5, 0⟩ ∧
      [(⟨1, str "u.ts"⟩ : MediaSegment)] ≠ [⟨1, str "#EXT-X-ENDLISTXX"⟩] :=
  ⟨by decide, by decide⟩

/-- C4 (amended): during the segment-collection pass, any line starting
with the end-of-list tag (and not with the segment-info or byte-range
prefixes) is ignored with no state change; every other line that does not
start with the segment-info, byte-range or end-of-list prefixes,
encountered while a duration is pending, is appended verbatim as the URL of
a new `MediaSegment` carrying the pending duration, and the pending flag is
cleared. -/
theorem c4_theorem :
    (∀ (pending : Bool) (dur : ℚ) (l : Str) (ls : List Str),
        isSegTag l = false → isByteTag l = false → isEndTag l = true →
        segLoop pending dur (l :: ls) = segLoop pending dur ls)
    ∧ (∀ (dur : ℚ) (l : Str) (ls : List Str),
        isSegTag l = false → isByteTag l = false → isEndTag l = false →
        segLoop true dur (l :: ls)
          = (segLoop false dur ls).map (fun segs => ⟨dur, l⟩ :: segs)) :=
  ⟨segLoop_end, segLoop_url⟩

/-- C4 witness: the amended step behavior at concrete inputs. -/
theorem c4_witness :
    segLoop true 1 [str "#EXT-X-ENDLISTXX", str "u"] = segLoop true 1 [str "u"] ∧
    segLoop true 1 [str "u"]
      = (segLoop false 1 []).map (fun segs => ⟨1, str "u"⟩ :: segs) :=
  ⟨c4_theorem.1 true 1 (str "#EXT-X-ENDLISTXX") [str "u"]
      (by decide) (by decide) (by decide),
    c4_theorem.2 1 (str "u") [] (by decide) (by decide) (by decide)⟩

/-- C9: a line that starts with `#EXTINF` but from which `#EXTINF:` cannot
be stripped sets the pending flag without error and without updating the
pending duration; consequently, on the first concrete input the line after
the bare `#EXTINF` becomes a segment with the most recently parsed duration
(2 seconds), and on the second, with no earlier `#EXTINF` payload, a
segment with duration zero. -/
theorem c9_theorem :
    (∀ (pending : Bool) (dur : ℚ) (l : Str) (ls : List Str),
        isSegTag l = true → stripPre SEGMENT_PRE l = none →
        segLoop pending dur (l :: ls) = segLoop true dur ls)
    ∧ parse_ext_m3u c9aText = .ok ⟨false, [⟨2, str "u1"⟩, ⟨2, str "u2"⟩], 5, 0⟩
    ∧ parse_ext_m3u c9bText = .ok ⟨false, [⟨0, str "u"⟩], 5, 0⟩ :=
  ⟨segLoop_seg_nostrip, by decide, by decide⟩

/-- C9 witness: the step behavior at the concrete bare `#EXTINF` line. -/
theorem c9_witness :
    segLoop true 5 [str "#EXTINF", str "u"] = segLoop true 5 [str "u"] :=
  c9_theorem.1 true 5 (str "#EXTINF") [str "u"] (by decide) (by decide)

/-- C10: only lines starting with the segment-info, byte-range or
end-of-list prefixes are exempt from URL capture; any other line
immediately following an `#EXTINF` line is captured verbatim as that
segment's URL.  The concrete inputs exhibit the header tag, the version
tag line, an empty line, an unrecognized tag line, and the target-duration
tag line each captured as URLs. -/
theorem c10_theorem :
    (∀ (dur : ℚ) (l : Str) (ls : List Str),
        isSegTag l = false → isByteTag l = false → isEndTag l = false →
        segLoop true dur (l :: ls)
          = (segLoop false dur ls).map (fun segs => ⟨dur, l⟩ :: segs))
    ∧ parse_ext_m3u c10aText
        = .ok ⟨false, [⟨1, str "#EXTM3U"⟩, ⟨2, str "#EXT-X-VERSION:3"⟩,
            ⟨3, []⟩, ⟨4, str "#EXT-X-FOO:bar"⟩], 5, 3⟩
    ∧ parse_ext_m3u c10bText
        = .ok ⟨false, [⟨1, str "#EXT-X-TARGETDURATION:7"⟩], 7, 0⟩ :=
  ⟨segLoop_url, by decide, by decide⟩

/-- C10 witness: the capture step at a concrete version-tag line. -/
theorem c10_witness :
    segLoop true 2 [str "#EXT-X-VERSION:9"]
      = (segLoop false 2 []).map (fun segs => ⟨2, str "#EXT-X-VERSION:9"⟩ :: segs) :=
  c10_theorem.1 2 (str "#EXT-X-VERSION:9") [] (by decide) (by decide) (by decide)

/-- C5: for every input with a valid header in which two or more lines
start with the version tag, the parse fails with the duplicate-version-tag
error, regardless of the payloads of those lines. -/
theorem c5_theorem (s : Str) (l0 : Str) (rest : List Str)
    (hls : rustLines s = l0 :: rest) (hhead : l0 = HEADER_TAG)
    (hdup : 2 ≤ ((l0 :: rest).filter (fun x => isVerTag x)).length) :
    parse_ext_m3u s = .error (.err (.duplicateTag .version)) := by
  have h1 : 1 < ((l0 :: rest).filter (fun x => isVerTag x)).length := by omega
  rw [parse_ext_m3u, hls]
  simp only [parseLines, if_pos hhead, resolveVersion, if_pos h1]

/-- C5 witness: two identical version tags give the duplicate-tag error. -/
theorem c5_witness :
    parse_ext_m3u c5Text = .error (.err (.duplicateTag .version)) :=
  c5_theorem c5Text (str "#EXTM3U")
    [str "#EXT-X-VERSION:1", str "#EXT-X-VERSION:1"]
    (by decide) (by decide) (by decide)

/-- C6: whenever the parse succeeds, the `ended` field of the returned
playlist is true if and only if some line of the input is exactly equal to
the end-of-list tag, independently of where that line occurs. -/
theorem c6_theorem (s : Str) (p : MediaPlaylist)
    (h : parse_ext_m3u s = .ok p) :
    p.ended = true ↔ ENDLIST_TAG ∈ rustLines s := by
  rw [parse_ext_m3u] at h
  rcases hls : rustLines s with _ | ⟨l0, rest⟩ <;> rw [hls] at h
  · simp only [parseLines] at h
    exact Except.noConfusion h
  · simp only [parseLines] at h
    by_cases hhead : l0 = HEADER_TAG
    · rw [if_pos hhead] at h
      rcases hv : resolveVersion (l0 :: rest) with e | v <;> rw [hv] at h
      · exact Except.noConfusion h
      · rcases hd : resolveDuration (l0 :: rest) with e | d <;> rw [hd] at h
        · exact Except.noConfusion h
        · rcases hsg : segLoop false 0 (l0 :: rest) with e | segs <;> rw [hsg] at h
          · exact Except.noConfusion h
          · injection h with h
            subst h
            refine Iff.intro (fun hh => ?_) (fun hm => ?_)
            · rcases List.any_eq_true.mp hh with ⟨x, hx, he⟩
              exact (beq_iff_eq.mp he) ▸ hx
            · exact List.any_eq_true.mpr ⟨ENDLIST_TAG, hm, beq_self_eq_true _⟩
    · rw [if_neg hhead] at h
      exact Except.noConfusion h

/-- C6 witness: the end tag present in a concrete successful parse. -/
theorem c6_witness :
    (⟨true, [], 5, 0⟩ : MediaPlaylist).ended = true ↔ ENDLIST_TAG ∈ rustLines c6Text :=
  c6_theorem c6Text ⟨true, [], 5, 0⟩ (by decide)

/-- C7: the embedded parse is a pure, deterministic function of its input
text: two results obtained from the same text are equal. -/
theorem c7_theorem (s : Str) (r1 r2 : Except PFail MediaPlaylist)
    (h1 : r1 = parse_ext_m3u s) (h2 : r2 = parse_ext_m3u s) : r1 = r2 :=
  h1.trans h2.symm

/-- C7 witness: determinism at a concrete input. -/
theorem c7_witness :
    (Except.error (PFail.err .emptyInput) : Except PFail MediaPlaylist)
      = Except.error (PFail.err .emptyInput) :=
  c7_theorem (str "") _ _ (by decide) (by decide)

/-- C8: the embedded call is not total over otherwise-valid inputs: on the
input whose `#EXTINF` payload is `-1`, the `f32` parses but
`Duration::from_secs_f32` panics, so the call aborts (modelled by the
distinguished `panic` outcome) instead of returning an `Err` value. -/
theorem c8_theorem : parse_ext_m3u c8Text = .error .panic := by decide

/-- C2: the claim as stated is false: its hypotheses (exact header,
exactly one target-duration tag with valid payload, zero or one version
tag with valid payload) all hold of the counterexample input, yet the parse
does not succeed, because the `#EXTINF:abc,` payload fails to parse as
`f32` and the call aborts with the malformed-segment-info error. -/
theorem c2_counterexample :
    c2OrigHyp (rustLines c2Text) = true ∧
      parse_ext_m3u c2Text = .error (.err (.malformedTag .segmentInfo)) :=
  ⟨by decide, by decide⟩

/-- C2 (amended): for every input that begins with the exact header line,
contains exactly one target-duration tag with a valid unsigned-integer
payload, zero or one version tag with a valid payload, and in which every
`#EXTINF:` payload's first comma field parses as an `f32` accepted by
`Duration::from_secs_f32`, the parse succeeds and the segments sequence
has exactly one element per `#EXTINF` tag that is followed (skipping
byte-range and end-of-list lines) by a capturable line, the segment URLs
being those lines in order of appearance. -/
theorem c2_theorem (s : Str) (h : c2Hyp (rustLines s) = true) :
    ∃ p, parse_ext_m3u s = .ok p ∧
      p.segments.length = specSegCount (rustLines s) ∧
      p.segments.map (fun sg => sg.url) = specUrls (rustLines s) := by
  rw [c2Hyp, Bool.and_eq_true] at h
  obtain ⟨horig, hseg⟩ := h
  rw [c2OrigHyp, Bool.and_eq_true, Bool.and_eq_true] at horig
  obtain ⟨⟨hhead, hdur⟩, hver⟩ := horig
  obtain ⟨v, hv⟩ := resolveVersion_ok _ hver
  obtain ⟨d, hd⟩ := resolveDuration_ok _ hdur
  obtain ⟨segs, hsl, hurls⟩ := segLoop_spec (rustLines s) false 0 hseg
  rcases hls : rustLines s with _ | ⟨l0, rest⟩
  · rw [hls] at hhead; simp [headerOkB] at hhead
  · have hl0 : l0 = HEADER_TAG := by
      rw [hls] at hhead
      simpa [headerOkB] using hhead
    rw [hls] at hv hd hsl hurls
    refine ⟨⟨(l0 :: rest).any (fun x => x == ENDLIST_TAG), segs, (d : ℚ), v⟩,
      ?_, ?_, ?_⟩
    · rw [parse_ext_m3u, hls]
      simp [parseLines, if_pos hl0, hv, hd, hsl]
    · show segs.length = specSegCount (l0 :: rest)
      have hlen := congrArg List.length hurls
      rw [List.length_map] at hlen
      rw [hlen, (specAux_spec (l0 :: rest)).1, specSegCount_eq]
    · show segs.map (fun sg => sg.url) = specUrls (l0 :: rest)
      rw [hurls, (specAux_spec (l0 :: rest)).1]

/-- C2 witness: the amended claim at a concrete well-formed input. -/
theorem c2_witness :
    ∃ p, parse_ext_m3u c2wText = .ok p ∧
      p.segments.length = specSegCount (rustLines c2wText) ∧
      p.segments.map (fun sg => sg.url) = specUrls (rustLines c2wText) :=
  c2_theorem c2wText (by decide)

/-- C3: the claim as stated is false: on the counterexample input the
single line starting with the target-duration tag has no colon, so its
remainder cannot be obtained, yet the parse does not fail with the
malformed-duration error: it succeeds, silently treating the target
duration as 0 (the source has no else branch for the failed prefix strip,
unlike the version handling). -/
theorem c3_counterexample :
    ((rustLines c3Text).filter (fun x => isDurTag x)).length = 1 ∧
      parse_ext_m3u c3Text = .ok ⟨false, [], 0, 0⟩ :=
  ⟨by decide, by decide⟩

/-- C3 (amended): for every input with a valid header and acceptable
version tags whose line sequence contains exactly one line starting with
the target-duration tag: if that line's colon-delimited remainder is
obtained but cannot be parsed as an unsigned 64-bit integer, the parse
fails with the malformed-duration error; if the remainder cannot be
obtained at all (no colon), the tag is instead silently treated as a
target duration of 0 and (when the segment payloads are acceptable) the
parse succeeds. -/
theorem c3_theorem :
    (∀ s : Str, c3MalformedHyp (rustLines s) = true →
        parse_ext_m3u s = .error (.err (.malformedTag .duration)))
    ∧ (∀ s : Str, c3NoColonHyp (rustLines s) = true →
        ∃ p, parse_ext_m3u s = .ok p ∧ p.target_duration = 0) := by
  constructor
  · intro s h
    rw [c3MalformedHyp] at h
    simp only [Bool.and_eq_true] at h
    obtain ⟨⟨⟨hhead, hver⟩, hcount⟩, hall⟩ := h
    obtain ⟨v, hv⟩ := resolveVersion_ok _ hver
    have hd := resolveDuration_malformed _ (beq_iff_eq.mp hcount) hall
    rcases hls : rustLines s with _ | ⟨l0, rest⟩
    · rw [hls] at hhead; simp [headerOkB] at hhead
    · have hl0 : l0 = HEADER_TAG := by
        rw [hls] at hhead
        simpa [headerOkB] using hhead
      rw [hls] at hv hd
      rw [parse_ext_m3u, hls]
      simp [parseLines, if_pos hl0, hv, hd]
  · intro s h
    rw [c3NoColonHyp] at h
    simp only [Bool.and_eq_true] at h
    obtain ⟨⟨⟨⟨hhead, hver⟩, hcount⟩, hnone⟩, hseg⟩ := h
    obtain ⟨v, hv⟩ := resolveVersion_ok _ hver
    have hd := resolveDuration_nocolon _ (beq_iff_eq.mp hcount) hnone
    obtain ⟨segs, hsl, hurls⟩ := segLoop_spec (rustLines s) false 0 hseg
    rcases hls : rustLines s with _ | ⟨l0, rest⟩
    · rw [hls] at hhead; simp [headerOkB] at hhead
    · have hl0 : l0 = HEADER_TAG := by
        rw [hls] at hhead
        simpa [headerOkB] using hhead
      rw [hls] at hv hd hsl
      refine ⟨⟨(l0 :: rest).any (fun x => x == ENDLIST_TAG), segs, 0, v⟩, ?_, rfl⟩
      rw [parse_ext_m3u, hls]
      simp [parseLines, if_pos hl0, hv, hd, hsl]

/-- C3 witness: both amended behaviors at concrete inputs. -/
theorem c3_witness :
    parse_ext_m3u (str "#EXTM3U\n#EXT-X-TARGETDURATION:x")
        = .error (.err (.malformedTag .duration)) ∧
      ∃ p, parse_ext_m3u c3Text = .ok p ∧ p.target_duration = 0 :=
  ⟨c3_theorem.1 (str "#EXTM3U\n#EXT-X-TARGETDURATION:x") (by decide),
    c3_theorem.2 c3Text (by decide)⟩

end HLSParse
